import Mathlib

/-!
Verification of the Document-Image-Translator repository.

The repository contains the web client (TypeScript, under
`src/web/document-image-translator`), shared utility functions
(`formatFileSize`, `validateFile`), and the `DocumentTranslation`
JSON wire schema.  The Python pipeline (Document Model, Translator,
Layout Renderer, Job Orchestrator) is described by the specification
but its source is not part of the repository snapshot; those parts are
modelled from the spec, and each such definition says so in its doc
comment.
-/

namespace DocImageTranslator

/-! ## Document model (wire schema `DocumentTranslation`, spec section 3) -/

/-- `Style` record of the wire schema: `font_family`, `font_size`, `color`,
`is_bold`, `is_italic`. -/
structure Style where
  font_family : String
  font_size : Nat
  color : String
  is_bold : Bool
  is_italic : Bool
deriving DecidableEq

/-- Element discriminator: `text`, `image` or `table`. -/
inductive ElemType
  | text
  | image
  | table
deriving DecidableEq

/-- Bounding box `[x0, y0, x1, y1]` in page coordinate space. -/
structure BoundingBox where
  x0 : Int
  y0 : Int
  x1 : Int
  y1 : Int
deriving DecidableEq

/-- One positioned unit of document content. -/
structure Element where
  type : ElemType
  content : String
  bounding_box : BoundingBox
  style : Style
  language : String
deriving DecidableEq

/-- Page dimensions (`width`, `height`). -/
structure Dimensions where
  width : Nat
  height : Nat
deriving DecidableEq

/-- A page: `page_num`, `dimensions` and an ordered sequence of elements. -/
structure Page where
  page_num : Nat
  dimensions : Dimensions
  elements : List Element
deriving DecidableEq

/-- A document: an ordered sequence of pages. -/
structure Document where
  pages : List Page
deriving DecidableEq

/-! ## Translator (spec section 4.3) -/

/-- Modelled from the spec: the Translator stage of the absent Python
pipeline.  `T content target` stands for the translation provider call.
An element already in the target language is passed through unchanged
(spec section 4.3); otherwise `content` is replaced by its translation
and `language` is set to the target code, all other fields kept. -/
def translateElement (T : String → String → String) (L : String) (e : Element) : Element :=
  if e.language = L then e
  else { e with content := T e.content L, language := L }

/-- Modelled from the spec: per-page translation maps `translateElement`
over the page's elements, keeping `page_num` and `dimensions`. -/
def translatePage (T : String → String → String) (L : String) (p : Page) : Page :=
  { p with elements := p.elements.map (translateElement T L) }

/-- Modelled from the spec: translating a Document translates every page. -/
def translate (T : String → String → String) (L : String) (D : Document) : Document :=
  { pages := D.pages.map (translatePage T L) }

/-- The `content` fields of a Document, page by page. -/
def documentContents (D : Document) : List (List String) :=
  D.pages.map (fun p => p.elements.map Element.content)

/-! ## Layout Renderer (spec section 4.4) -/

/-- Output format of the Layout Renderer: `html` or `markdown`. -/
inductive OutputFormat
  | html
  | markdown
deriving DecidableEq

/-- Modelled from the spec: the CSS fragment derived from an element's
`style` fields (font-family, size, weight, slant, color). -/
def styleCss (st : Style) : String :=
  "font-family:" ++ st.font_family ++ ";font-size:" ++ toString st.font_size ++
    "px;color:" ++ st.color ++
    (if st.is_bold then ";font-weight:bold" else "") ++
    (if st.is_italic then ";font-style:italic" else "")

/-- Modelled from the spec: one absolutely positioned node per element,
placed by its bounding box; `image` elements render as placeholders sized
to the bounding box. -/
def renderElement (e : Element) : String :=
  let b := e.bounding_box
  let pos := "position:absolute;left:" ++ toString b.x0 ++ "px;top:" ++ toString b.y0 ++
    "px;width:" ++ toString (b.x1 - b.x0) ++ "px;height:" ++ toString (b.y1 - b.y0) ++ "px;"
  match e.type with
  | .image => "<div style=\x22" ++ pos ++ "\x22 class=\x22image-placeholder\x22></div>"
  | _ => "<div style=\x22" ++ pos ++ styleCss e.style ++ "\x22>" ++ e.content ++ "</div>"

/-- Modelled from the spec: a page is a fixed-size canvas holding its
rendered elements. -/
def renderPage (p : Page) : String :=
  "<div class=\x22page\x22 style=\x22position:relative;width:" ++
    toString p.dimensions.width ++ "px;height:" ++ toString p.dimensions.height ++
    "px;\x22>" ++ String.join (p.elements.map renderElement) ++ "</div>"

/-- Modelled from the spec: the Layout Renderer of the absent Python
pipeline, serializing a translated Document into a self-contained HTML
(or lossy Markdown) artifact.  It is defined on the Document alone. -/
def render (fmt : OutputFormat) (D : Document) : String :=
  match fmt with
  | .html => "<html><body>" ++ String.join (D.pages.map renderPage) ++ "</body></html>"
  | .markdown =>
      String.join (D.pages.map (fun p =>
        String.join (p.elements.map (fun e => e.content ++ "\n"))))

/-- Ambient per-job context available to the Orchestrator when it invokes
the Renderer (job id, wall-clock time, attempt counter).  Render
determinism says the rendered bytes do not depend on it. -/
structure JobContext where
  job_id : String
  timestamp : Nat
  attempt : Nat

/-- Modelled from the spec: the Orchestrator rendering step, a call of the
Renderer from within a job context.  The Renderer is a pure function of
the Document and format, so the context is not consulted. -/
def renderJob (_ctx : JobContext) (fmt : OutputFormat) (D : Document) : String :=
  render fmt D

/-! ## Document Model structural validation (spec section 4.1) -/

/-- Non-degenerate bounding box: `x0 < x1` and `y0 < y1`. -/
def validBoundingBox (b : BoundingBox) : Bool :=
  decide (b.x0 < b.x1) && decide (b.y0 < b.y1)

/-- True when the list has no duplicate entries. -/
def pageNumsUnique : List Nat → Bool
  | [] => true
  | n :: ns => !(ns.contains n) && pageNumsUnique ns

/-- Modelled from the spec: the Document Model's structural validation
(section 4.1) of the absent Python pipeline.  Field presence is enforced
by the record types themselves; beyond that, construction is rejected
when a bounding box is degenerate (`x0 >= x1` or `y0 >= y1`) or when
`page_num` values are not unique. -/
def validateDocumentModel (D : Document) : Bool :=
  D.pages.all (fun p => p.elements.all (fun e => validBoundingBox e.bounding_box)) &&
  pageNumsUnique (D.pages.map Page.page_num)

/-! ## Job Orchestrator state machine (spec section 4.5) -/

/-- Pipeline stage recorded in the Status Record. -/
inductive Stage
  | queued
  | extracting
  | translating
  | rendering
  | completed
deriving DecidableEq

/-- Rank of a stage in the order
`queued < extracting < translating < rendering < completed`. -/
def Stage.rank : Stage → Nat
  | .queued => 0
  | .extracting => 1
  | .translating => 2
  | .rendering => 3
  | .completed => 4

/-- Job Status Record: stage, progress, result locations
(output format to storage key) and optional error message. -/
structure StatusRecord where
  stage : Stage
  progress : Nat
  result_locations : List (String × String)
  error : Option String
deriving DecidableEq

/-- The record created at job start. -/
def initStatus : StatusRecord :=
  { stage := .queued, progress := 0, result_locations := [], error := none }

/-- Modelled from the spec: the status writes the Orchestrator (section
4.5) may perform.  Stages advance `queued → extracting → translating →
rendering → completed`; `result_locations` is populated atomically with
the `completed` write; any non-terminal stage may fail, which sets the
`error` field and leaves `stage` at the failing stage; no write ever
starts from a record whose `error` is set (error is absorbing) or from a
`completed` record (completed is terminal). -/
inductive OrchStep : StatusRecord → StatusRecord → Prop
  | start {s : StatusRecord} (herr : s.error = none) (hst : s.stage = .queued) :
      OrchStep s { s with stage := .extracting }
  | extracted {s : StatusRecord} (herr : s.error = none) (hst : s.stage = .extracting) :
      OrchStep s { s with stage := .translating }
  | translated {s : StatusRecord} (herr : s.error = none) (hst : s.stage = .translating) :
      OrchStep s { s with stage := .rendering }
  | rendered {s : StatusRecord} (locs : List (String × String)) (herr : s.error = none)
      (hst : s.stage = .rendering) (hne : locs ≠ []) :
      OrchStep s { s with stage := .completed, progress := 100, result_locations := locs }
  | failed {s : StatusRecord} (msg : String) (herr : s.error = none)
      (hst : s.stage ≠ .completed) (hmsg : msg ≠ "") :
      OrchStep s { s with error := some msg }

/-! ## JSON values and the `DocumentTranslation` schema
(`doc_translation.schema.json`, draft-07) -/

/-- A parsed JSON value.  Numbers are exact rationals. -/
inductive Json
  | null
  | bool (b : Bool)
  | num (q : Rat)
  | str (s : String)
  | arr (xs : List Json)
  | obj (kvs : List (String × Json))

/-- Look a key up in a JSON value; `none` when the value is not an object
or the key is absent. -/
def getKey (j : Json) (k : String) : Option Json :=
  match j with
  | .obj kvs => kvs.lookup k
  | _ => none

/-- Key presence test. -/
def hasKey (j : Json) (k : String) : Bool :=
  (getKey j k).isSome

/-- Draft-07 `required`: the key must be present in the object. -/
def requireKey (kvs : List (String × Json)) (k : String) : Bool :=
  (kvs.lookup k).isSome

/-- Draft-07 `properties`: a property is constrained only when present. -/
def checkProp (kvs : List (String × Json)) (k : String) (check : Json → Bool) : Bool :=
  match kvs.lookup k with
  | some v => check v
  | none => true

/-- Draft-07 `"type": "string"`. -/
def isStr : Json → Bool
  | .str _ => true
  | _ => false

/-- Draft-07 `"type": "integer"`: a number with zero fractional part. -/
def isIntNum : Json → Bool
  | .num q => q.den == 1
  | _ => false

/-- Draft-07 `"type": "number"`. -/
def isNum : Json → Bool
  | .num _ => true
  | _ => false

/-- Draft-07 `"type": "boolean"`. -/
def isBoolVal : Json → Bool
  | .bool _ => true
  | _ => false

/-- The schema's `Style` definition: the five style fields are required
and typed. -/
def validStyle : Json → Bool
  | .obj kvs =>
      requireKey kvs "font_family" && requireKey kvs "font_size" &&
      requireKey kvs "color" && requireKey kvs "is_bold" && requireKey kvs "is_italic" &&
      checkProp kvs "font_family" isStr && checkProp kvs "font_size" isIntNum &&
      checkProp kvs "color" isStr && checkProp kvs "is_bold" isBoolVal &&
      checkProp kvs "is_italic" isBoolVal
  | _ => false

/-- The schema's `Element` definition: `type` (enum over
`text`/`image`/`table`), `content`, `bounding_box` (array of exactly four
numbers), `style` and `language` are all required. -/
def validElementJson : Json → Bool
  | .obj kvs =>
      requireKey kvs "type" && requireKey kvs "content" && requireKey kvs "bounding_box" &&
      requireKey kvs "style" && requireKey kvs "language" &&
      checkProp kvs "type" (fun j =>
        match j with
        | .str s => s == "text" || s == "image" || s == "table"
        | _ => false) &&
      checkProp kvs "content" isStr &&
      checkProp kvs "bounding_box" (fun j =>
        match j with
        | .arr xs => xs.length == 4 && xs.all isNum
        | _ => false) &&
      checkProp kvs "style" validStyle &&
      checkProp kvs "language" isStr
  | _ => false

/-- The schema's `Page` definition: `page_num`, `dimensions` (with
required `width` and `height`) and `elements` are required. -/
def validPageJson : Json → Bool
  | .obj kvs =>
      requireKey kvs "page_num" && requireKey kvs "dimensions" && requireKey kvs "elements" &&
      checkProp kvs "page_num" isIntNum &&
      checkProp kvs "dimensions" (fun j =>
        match j with
        | .obj dkvs =>
            requireKey dkvs "width" && requireKey dkvs "height" &&
            checkProp dkvs "width" isIntNum && checkProp dkvs "height" isIntNum
        | _ => false) &&
      checkProp kvs "elements" (fun j =>
        match j with
        | .arr xs => xs.all validElementJson
        | _ => false)
  | _ => false

/-- The schema's `Document` definition: `pages` is required and is an
array of valid pages. -/
def validDocumentJson : Json → Bool
  | .obj kvs =>
      requireKey kvs "pages" &&
      checkProp kvs "pages" (fun j =>
        match j with
        | .arr xs => xs.all validPageJson
        | _ => false)
  | _ => false

/-- The schema's `metadata` object: `source_format` (enum
`pdf`/`image`/`docx`), `source_lang`, `target_lang` and `dpi` required. -/
def validMetadata : Json → Bool
  | .obj kvs =>
      requireKey kvs "source_format" && requireKey kvs "source_lang" &&
      requireKey kvs "target_lang" && requireKey kvs "dpi" &&
      checkProp kvs "source_format" (fun j =>
        match j with
        | .str s => s == "pdf" || s == "image" || s == "docx"
        | _ => false) &&
      checkProp kvs "source_lang" isStr &&
      checkProp kvs "target_lang" isStr &&
      checkProp kvs "dpi" isIntNum
  | _ => false

/-- The top-level `DocumentTranslation` envelope: `metadata`, `source`
and `target` are required; `source` and `target` are Documents. -/
def validDocumentTranslation : Json → Bool
  | .obj kvs =>
      requireKey kvs "metadata" && requireKey kvs "source" && requireKey kvs "target" &&
      checkProp kvs "metadata" validMetadata &&
      checkProp kvs "source" validDocumentJson &&
      checkProp kvs "target" validDocumentJson
  | _ => false

/-! ## Web client: file validation
(`src/lib/utils.ts` / `validateFile`) -/

/-- A browser `File` as the client consults it: name, byte size, MIME
type.  (The `!file` null check of the source is outside the model: a
`JsFile` value is always a present file.) -/
structure JsFile where
  name : String
  size : Nat
  type : String
deriving DecidableEq

/-- `maxFileSize = 10 * 1024 * 1024` (10MB). -/
def maxFileSize : Nat := 10 * 1024 * 1024

/-- `allowedTypes` from `validateFile`. -/
def allowedTypes : List String :=
  ["image/jpeg", "image/png", "image/webp", "application/pdf"]

/-- Result of `validateFile`: `valid` flag plus optional error string. -/
structure FileValidation where
  valid : Bool
  error : Option String
deriving DecidableEq

/-- `validateFile`: size over 10MB, then MIME type not allowed, each
rejected with its message; otherwise valid. -/
def validateFile (f : JsFile) : FileValidation :=
  if f.size > maxFileSize then
    { valid := false, error := some "File size too large. Maximum size is 10MB." }
  else if !(allowedTypes.contains f.type) then
    { valid := false,
      error := some "Invalid file type. Please upload an image (JPEG, PNG, WebP) or PDF." }
  else
    { valid := true, error := none }

/-! ## Web client: the `useImageTranslator` hook state
(`src/hooks/useImageTranslator.ts`) -/

/-- `uploadStatus` values (`UPLOAD_STATUS` in `src/lib/constants.ts`). -/
inductive UploadStatus
  | idle
  | uploading
  | processing
  | completed
  | error
deriving DecidableEq

/-- The hook's React state as one record. -/
structure ClientState where
  selectedFile : Option JsFile
  uploadStatus : UploadStatus
  processingProgress : Nat
  errorMessage : String
  downloadUrl : Option String
  previewUrl : Option String
  showTranslated : Bool
deriving DecidableEq

/-- The initial hook state. -/
def initClient : ClientState :=
  { selectedFile := none, uploadStatus := .idle, processingProgress := 0,
    errorMessage := "", downloadUrl := none, previewUrl := none, showTranslated := false }

/-- `handleFileSelect`: on failed validation set the error message and
`error` status and return (all other state untouched); on success store
the file, reset status/message/progress/downloadUrl and install a fresh
object URL as preview.  `url` stands for `URL.createObjectURL(file)`. -/
def handleFileSelect (s : ClientState) (f : JsFile) (url : String) : ClientState :=
  let v := validateFile f
  if v.valid = false then
    { s with errorMessage := v.error.getD "", uploadStatus := .error }
  else
    { s with selectedFile := some f, uploadStatus := .idle, errorMessage := "",
             processingProgress := 0, downloadUrl := none, showTranslated := false,
             previewUrl := some url }

/-! ## Web client: status polling (`pollStatusHandler`) -/

/-- JavaScript string truthiness for an optional string field. -/
def truthyStr : Option String → Bool
  | none => false
  | some s => !(s == "")

/-- JavaScript `a || b` on strings. -/
def jsOr (a b : String) : String :=
  if a == "" then b else a

/-- The fields of a status poll response body that `pollStatusHandler`
consults: `html_results_url`, the progress and message (the source reads
them from `response.status.progress` / `response.status.message` when
`status` is a nested object, else from `response.progress` /
`response.message`, defaulting to `0` / `""`; the model carries the
extracted values), and `error`. -/
structure StatusResponse where
  html_results_url : Option String
  progress : Nat
  message : String
  error : Option String
deriving DecidableEq

/-- The successful-response branch of `pollStatusHandler` (lines 114-155
of `src/hooks/useImageTranslator.ts`): a truthy `html_results_url` marks
the job completed with progress 100 and that URL as `downloadUrl`;
otherwise progress below 100 keeps `processing`; at 100 a truthy `error`
surfaces an error; else keep `processing`. -/
def handlePollOk (r : StatusResponse) (s : ClientState) : ClientState :=
  if truthyStr r.html_results_url then
    { s with uploadStatus := .completed, processingProgress := 100,
             downloadUrl := some (r.html_results_url.getD "") }
  else
    let s1 := { s with processingProgress := r.progress }
    if r.progress < 100 then
      { s1 with uploadStatus := .processing }
    else if truthyStr r.error then
      { s1 with uploadStatus := .error,
                errorMessage := jsOr (r.error.getD "") (jsOr r.message "Processing failed") }
    else
      { s1 with uploadStatus := .processing }

/-- Character-list prefix test (`needle` starts `hay`). -/
def charsStartWith : List Char → List Char → Bool
  | _, [] => true
  | [], _ :: _ => false
  | a :: as, b :: bs => a == b && charsStartWith as bs

/-- Character-list containment test. -/
def charsContain : List Char → List Char → Bool
  | [], needle => needle.isEmpty
  | a :: as, needle => charsStartWith (a :: as) needle || charsContain as needle

/-- `hay.includes(needle)` of JavaScript. -/
def strContains (hay needle : String) : Bool :=
  charsContain hay.toList needle.toList

/-- The retry condition of `pollStatusHandler`:
`message.includes("404") || message.toLowerCase().includes("item not found")`. -/
def isNotFoundMsg (m : String) : Bool :=
  strContains m "404" || strContains m.toLower "item not found"

/-- `maxRetries = 3` in `pollStatusHandler`. -/
def maxRetries : Nat := 3

/-- `retryDelay = 10000` (milliseconds) in `pollStatusHandler`. -/
def retryDelay : Nat := 10000

/-- One observed outcome of `checkProcessingStatus`: either a parsed
response body, or a thrown error with its message (a 404 HTTP status
throws `"HTTP error! status: 404"`). -/
inductive PollOutcome
  | ok (r : StatusResponse)
  | exn (msg : String)

/-- One execution of the `poll` closure of `pollStatusHandler` on one
outcome.  Returns the new client state, the new `retries` counter, and
`some d` when another poll is scheduled after `d` milliseconds (`none`
when the loop ends).  On an exception, a not-found message is retried
after `retryDelay` while `retries < maxRetries`; otherwise the error is
surfaced. -/
def pollAttempt (o : PollOutcome) (retries : Nat) (s : ClientState) :
    ClientState × Nat × Option Nat :=
  match o with
  | .ok r =>
      let s1 := handlePollOk r s
      match s1.uploadStatus with
      | .completed => (s1, retries, none)
      | .error => (s1, retries, none)
      | _ => (s1, retries, some 2000)
  | .exn msg =>
      if retries < maxRetries then
        if isNotFoundMsg msg then
          (s, retries + 1, some retryDelay)
        else
          ({ s with uploadStatus := .error,
                    errorMessage := jsOr msg "Failed to check processing status" },
           retries, none)
      else
        ({ s with uploadStatus := .error,
                  errorMessage := jsOr msg "Failed to check processing status" },
         retries, none)

/-- Run the polling loop on a stream of outcomes until it stops or the
stream is exhausted.  Returns the final state, the final `retries`
counter, the list of delays of the scheduled re-polls, and whether the
loop came to a stop by itself. -/
def runPoll : List PollOutcome → Nat → ClientState → ClientState × Nat × List Nat × Bool
  | [], retries, s => (s, retries, [], false)
  | o :: rest, retries, s =>
      match pollAttempt o retries s with
      | (s1, r1, none) => (s1, r1, [], true)
      | (s1, r1, some d) =>
          let (s2, r2, ds, stop) := runPoll rest r1 s1
          (s2, r2, d :: ds, stop)

/-! ## Web client: the hook as a transition system -/

/-- The state changes the `useImageTranslator` hook can perform, each
constructor one code path: `handleFileSelect`, the phases of
`handleUpload` (set `uploading` and clear the message; set `processing`
with progress 0 after the S3 upload; surface a failure), a poll response
(`handlePollOk`), a poll exception surfaced after exhausted retries,
`handleReset`, and the failure path of `fetchTranslatedHtml` (which only
touches `errorMessage`). -/
inductive ClientStep : ClientState → ClientState → Prop
  | fileSelect {s : ClientState} (f : JsFile) (url : String) :
      ClientStep s (handleFileSelect s f url)
  | uploadStart {s : ClientState} (hf : s.selectedFile ≠ none) :
      ClientStep s { s with uploadStatus := .uploading, errorMessage := "" }
  | uploadDone {s : ClientState} :
      ClientStep s { s with uploadStatus := .processing, processingProgress := 0 }
  | uploadFail {s : ClientState} (msg : String) :
      ClientStep s { s with uploadStatus := .error, errorMessage := jsOr msg "Upload failed" }
  | pollOk {s : ClientState} (r : StatusResponse) :
      ClientStep s (handlePollOk r s)
  | pollExnFail {s : ClientState} (msg : String) :
      ClientStep s { s with uploadStatus := .error,
                            errorMessage := jsOr msg "Failed to check processing status" }
  | reset {s : ClientState} :
      ClientStep s initClient
  | fetchHtmlFail {s : ClientState} :
      ClientStep s { s with errorMessage := "Could not load translated HTML" }

/-! ## Legacy polling client (`src/modules/pollStatus.ts`) -/

/-- The parsed body fields the legacy `pollStatus` consults. -/
structure LegacyStatus where
  status : Option String
  html_url : Option String
deriving DecidableEq

/-- One response observed by the legacy `setInterval` callback. -/
structure LegacyResponse where
  ok : Bool
  data : LegacyStatus
deriving DecidableEq

/-- State of the legacy polling loop: whether `clearInterval` has run,
and the updates delivered to `onUpdate`. -/
structure LegacyState where
  cleared : Bool
  updates : List LegacyStatus
deriving DecidableEq

/-- The legacy loop before any tick. -/
def legacyInit : LegacyState := { cleared := false, updates := [] }

/-- One tick of the legacy `pollStatus` interval: a non-`ok` response
(404 included) does nothing and the interval keeps running; an `ok`
response is delivered to `onUpdate`, and the interval is cleared only on
`status === "complete"` with a truthy `html_url`. -/
def legacyTick (r : LegacyResponse) (st : LegacyState) : LegacyState :=
  if st.cleared then st
  else if r.ok then
    let st1 := { st with updates := st.updates ++ [r.data] }
    if r.data.status == some "complete" && truthyStr r.data.html_url then
      { st1 with cleared := true }
    else st1
  else st

/-- Run the legacy interval over a stream of responses. -/
def legacyRun (rs : List LegacyResponse) (st : LegacyState) : LegacyState :=
  rs.foldl (fun acc r => legacyTick r acc) st

/-- A 404 "item not found" response as the legacy loop sees it. -/
def notFoundResponse : LegacyResponse :=
  { ok := false, data := { status := none, html_url := none } }

/-! ## `formatFileSize` (`src/lib/utils.ts`)

The source computes `i = Math.floor(Math.log(bytes) / Math.log(1024))`
and prints `parseFloat((bytes / Math.pow(1024, i)).toFixed(2))` followed
by `sizes[i]`.  The model uses exact arithmetic: for an integer
`bytes ≥ 1` the real number `log(bytes) / log(1024)` has floor
`Nat.log 1024 bytes`, `toFixed(2)` rounds to hundredths (ties away from
zero for positive values), and `parseFloat` strips trailing fractional
zeros. -/

/-- `sizes = ["Bytes", "KB", "MB", "GB"]`. -/
def sizeUnits : List String := ["Bytes", "KB", "MB", "GB"]

/-- Hundredths after `toFixed(2)`: round a nonnegative rational to the
nearest multiple of 1/100, ties upward. -/
def round2 (q : Rat) : Nat :=
  (Int.toNat ⌊q * 100 + 1 / 2⌋)

/-- Print a hundredths count the way `parseFloat` renders the result of
`toFixed(2)`: drop a zero fractional part and a trailing fractional
zero. -/
def showHundredths (n : Nat) : String :=
  let ip := n / 100
  let fr := n % 100
  if fr = 0 then toString ip
  else if fr % 10 = 0 then toString ip ++ "." ++ toString (fr / 10)
  else if fr < 10 then toString ip ++ ".0" ++ toString fr
  else toString ip ++ "." ++ toString fr

/-- `formatFileSize` over its exact-arithmetic semantics. -/
def formatFileSize (bytes : Nat) : String :=
  if bytes = 0 then "0 Bytes"
  else
    let i := Nat.log 1024 bytes
    showHundredths (round2 ((bytes : Rat) / (1024 : Rat) ^ i)) ++ " " ++
      sizeUnits.getD i "undefined"

/-! ## Concrete example values (used by the witnesses) -/

/-- A concrete single-element document (the spec's scenario of section 8). -/
def docModelEx : Document :=
  { pages := [{ page_num := 1, dimensions := { width := 800, height := 600 },
                elements := [{ type := .text, content := "Hello",
                               bounding_box := { x0 := 10, y0 := 10, x1 := 100, y1 := 30 },
                               style := { font_family := "Arial", font_size := 12,
                                          color := "#000", is_bold := false,
                                          is_italic := false },
                               language := "english" }] }] }

/-- A two-write status history: job start. -/
def historyEx : List StatusRecord := [initStatus, { initStatus with stage := .extracting }]

/-- A concrete nonempty result-location map. -/
def resultLocsEx : List (String × String) := [("html", "results/uuid/example_result.html")]

/-- The status record after a full successful run. -/
def orchRunEx : StatusRecord :=
  { stage := .completed, progress := 100, result_locations := resultLocsEx, error := none }

/-- A poll response carrying a presigned result URL. -/
def respEx : StatusResponse :=
  { html_results_url := some "https://bucket.s3/results/example_result.html",
    progress := 100, message := "", error := none }

/-- Four consecutive 404 poll failures, as `checkProcessingStatus` throws
them. -/
def notFoundMsgsEx : List String :=
  ["HTTP error! status: 404", "HTTP error! status: 404",
   "HTTP error! status: 404", "HTTP error! status: 404"]

/-- An example `Style` JSON object matching the schema. -/
def styleJsonEx : Json :=
  .obj [("font_family", .str "Arial"), ("font_size", .num 12),
        ("color", .str "#000"), ("is_bold", .bool false), ("is_italic", .bool false)]

/-- An example `Element` JSON object matching the schema. -/
def elementJsonEx : Json :=
  .obj [("type", .str "text"), ("content", .str "Hello"),
        ("bounding_box", .arr [.num 10, .num 10, .num 100, .num 30]),
        ("style", styleJsonEx), ("language", .str "english")]

/-- An example `Page` JSON object matching the schema. -/
def pageJsonEx : Json :=
  .obj [("page_num", .num 1),
        ("dimensions", .obj [("width", .num 800), ("height", .num 600)]),
        ("elements", .arr [elementJsonEx])]

/-- An example `Document` JSON object matching the schema. -/
def documentJsonEx : Json := .obj [("pages", .arr [pageJsonEx])]

/-- An example `DocumentTranslation` envelope matching the schema. -/
def envelopeEx : Json :=
  .obj [("metadata", .obj [("source_format", .str "image"),
                           ("source_lang", .str "english"),
                           ("target_lang", .str "spanish"), ("dpi", .num 300)]),
        ("source", documentJsonEx), ("target", documentJsonEx)]

/-- Two different ambient job contexts. -/
def ctxEx1 : JobContext := { job_id := "job-1", timestamp := 1700000000, attempt := 1 }

/-- A second, distinct job context. -/
def ctxEx2 : JobContext := { job_id := "job-2", timestamp := 1700009999, attempt := 3 }

/-- An oversized file (one byte over the 10MB limit). -/
def bigFileEx : JsFile := { name := "big.png", size := 10 * 1024 * 1024 + 1, type := "image/png" }

/-- A file of a type outside the allow-list. -/
def badTypeFileEx : JsFile := { name := "notes.txt", size := 5, type := "text/plain" }

/-- An acceptable file. -/
def okFileEx : JsFile := { name := "scan.png", size := 123456, type := "image/png" }

/-! ## Translator lemmas and claims C1, C7 -/

/-- A translated element keeps `type`, `bounding_box` and `style` and
carries the target language. -/
theorem translateElement_fields (T : String → String → String) (L : String) (e : Element) :
    (translateElement T L e).type = e.type ∧
    (translateElement T L e).bounding_box = e.bounding_box ∧
    (translateElement T L e).style = e.style ∧
    (translateElement T L e).language = L := by
  by_cases h : e.language = L <;> simp [translateElement, h]

/-- Translating an already translated element changes nothing. -/
theorem translateElement_idem (T : String → String → String) (L : String) (e : Element) :
    translateElement T L (translateElement T L e) = translateElement T L e := by
  by_cases h : e.language = L <;> simp [translateElement, h]

/-- Translating an already translated page changes nothing. -/
theorem translatePage_idem (T : String → String → String) (L : String) (p : Page) :
    translatePage T L (translatePage T L p) = translatePage T L p := by
  simp [translatePage, List.map_map, Function.comp_def, translateElement_idem]

/-- C1.  Structure preservation of translation: for every provider `T`,
target language `L` and Document `D`, `translate T L D` has the same page
count as `D`; pairwise, each page keeps its `page_num`, `dimensions` and
element count, and each element keeps its `type`, `bounding_box` and
`style` while its `language` is set to `L` — only `content` and
`language` are mutated. -/
theorem translate_preserves_structure (T : String → String → String) (L : String)
    (D : Document) :
    (translate T L D).pages.length = D.pages.length ∧
    List.Forall₂ (fun q p =>
        q.page_num = p.page_num ∧ q.dimensions = p.dimensions ∧
        q.elements.length = p.elements.length ∧
        List.Forall₂ (fun d e =>
            d.type = e.type ∧ d.bounding_box = e.bounding_box ∧
            d.style = e.style ∧ d.language = L)
          q.elements p.elements)
      (translate T L D).pages D.pages := by
  constructor
  · simp [translate]
  · show List.Forall₂ _ (D.pages.map (translatePage T L)) D.pages
    rw [List.forall₂_map_left_iff]
    rw [List.forall₂_same]
    intro p _
    refine ⟨rfl, rfl, by simp [translatePage], ?_⟩
    show List.Forall₂ _ (p.elements.map (translateElement T L)) p.elements
    rw [List.forall₂_map_left_iff, List.forall₂_same]
    intro e _
    exact translateElement_fields T L e

/-- C7.  Idempotence of translation: translating a Document a second
time into the same target language leaves every `content` field (indeed
the whole Document) unchanged. -/
theorem translate_idempotent_contents (T : String → String → String) (L : String)
    (D : Document) :
    documentContents (translate T L (translate T L D)) =
      documentContents (translate T L D) := by
  have hfull : translate T L (translate T L D) = translate T L D := by
    simp [translate, List.map_map, Function.comp_def, translatePage_idem]
  rw [hfull]

/-! ## Document Model validation: claim C6 -/

/-- `pageNumsUnique` decides `List.Nodup`. -/
theorem pageNumsUnique_iff_nodup (l : List Nat) : pageNumsUnique l = true ↔ l.Nodup := by
  induction l with
  | nil => simp [pageNumsUnique]
  | cons n ns ih => simp [pageNumsUnique, ih, List.nodup_cons]

/-- C6.  The Document Model validation accepts exactly the documents in
which every element has a non-degenerate bounding box (`x0 < x1` and
`y0 < y1`) and all `page_num` values are pairwise distinct; any
degenerate box or duplicated page number makes it fail (field presence
itself is enforced by the record types). -/
theorem validateDocumentModel_iff (D : Document) :
    validateDocumentModel D = true ↔
      ((∀ p ∈ D.pages, ∀ e ∈ p.elements,
          e.bounding_box.x0 < e.bounding_box.x1 ∧
          e.bounding_box.y0 < e.bounding_box.y1) ∧
        (D.pages.map Page.page_num).Nodup) := by
  simp [validateDocumentModel, pageNumsUnique_iff_nodup, validBoundingBox]

/-- Witness for C6: the example document passes validation, hence all
its boxes are non-degenerate and its page numbers distinct. -/
theorem validateDocumentModel_iff_witness :
    (∀ p ∈ docModelEx.pages, ∀ e ∈ p.elements,
        e.bounding_box.x0 < e.bounding_box.x1 ∧
        e.bounding_box.y0 < e.bounding_box.y1) ∧
    (docModelEx.pages.map Page.page_num).Nodup :=
  (validateDocumentModel_iff docModelEx).mp (by decide)

/-! ## Orchestrator lemmas and claims C2, C3 (pipeline half) -/

/-- Every status write advances or keeps the stage rank. -/
theorem orchStep_rank_le {s t : StatusRecord} (h : OrchStep s t) :
    s.stage.rank ≤ t.stage.rank := by
  cases h with
  | start herr hst => rw [hst]; simp [Stage.rank]
  | extracted herr hst => rw [hst]; simp [Stage.rank]
  | translated herr hst => rw [hst]; simp [Stage.rank]
  | rendered locs herr hst hne => rw [hst]; simp [Stage.rank]
  | failed msg herr hst hmsg => exact Nat.le_refl _

/-- No status write starts from a record whose error field is set. -/
theorem orchStep_error_none {s t : StatusRecord} (h : OrchStep s t) : s.error = none := by
  cases h <;> assumption

/-- C2.  Status monotonicity: along any history of Orchestrator status
writes, the stage ranks are non-decreasing in the order
`queued < extracting < translating < rendering < completed`, and the
error state is absorbing: no status write ever applies to a record whose
`error` field is set, so a job that reached the error state never leaves
it. -/
theorem status_history_monotone (h : List StatusRecord)
    (hchain : List.Chain' OrchStep h) :
    List.Sorted (fun a b => a ≤ b) (h.map (fun s => s.stage.rank)) ∧
    ∀ s ∈ h, s.error.isSome = true → ∀ t, ¬ OrchStep s t := by
  constructor
  · have h2 : List.Chain' (fun a b => a ≤ b) (h.map fun s => s.stage.rank) := by
      rw [List.chain'_map]
      exact hchain.imp (fun a b hab => orchStep_rank_le hab)
    exact List.chain'_iff_pairwise.mp h2
  · intro s _ hserr t hstep
    rw [orchStep_error_none hstep] at hserr
    simp at hserr

/-- Witness for C2: the two-write history of a started job is monotone,
and its records admit no write once an error is set. -/
theorem status_history_monotone_witness :
    List.Sorted (fun a b => a ≤ b) (historyEx.map (fun s => s.stage.rank)) ∧
    ∀ s ∈ historyEx, s.error.isSome = true → ∀ t, ¬ OrchStep s t :=
  status_history_monotone historyEx
    (List.chain'_cons.mpr ⟨OrchStep.start rfl rfl, List.chain'_singleton _⟩)

/-- The target of any status write satisfies: `completed` implies
nonempty `result_locations`. -/
theorem orchStep_completed_results {s t : StatusRecord} (h : OrchStep s t) :
    t.stage = .completed → t.result_locations ≠ [] := by
  cases h with
  | start herr hst => intro hc; exact absurd hc (by simp)
  | extracted herr hst => intro hc; exact absurd hc (by simp)
  | translated herr hst => intro hc; exact absurd hc (by simp)
  | rendered locs herr hst hne => intro _; exact hne
  | failed msg herr hst hmsg => intro hc; exact absurd hc hst

/-- Every client step preserves the invariant `uploadStatus = completed →
downloadUrl present`. -/
theorem clientStep_preserves_completed {s t : ClientState} (h : ClientStep s t)
    (hs : s.uploadStatus = .completed → s.downloadUrl ≠ none) :
    t.uploadStatus = .completed → t.downloadUrl ≠ none := by
  cases h with
  | fileSelect f url =>
      by_cases hv : (validateFile f).valid = false <;> simp [handleFileSelect, hv]
  | uploadStart hf => intro hc; exact absurd hc (by simp)
  | uploadDone => intro hc; exact absurd hc (by simp)
  | uploadFail msg => intro hc; exact absurd hc (by simp)
  | pollOk r =>
      by_cases h1 : truthyStr r.html_results_url = true
      · simp [handlePollOk, h1]
      · by_cases h2 : r.progress < 100 <;> by_cases h3 : truthyStr r.error = true <;>
          simp [handlePollOk, h1, h2, h3]
  | pollExnFail msg => intro hc; exact absurd hc (by simp)
  | reset => intro hc; exact absurd hc (by simp [initClient])
  | fetchHtmlFail => exact hs

/-- C3.  A `completed` state is never observable without its results.
Pipeline side: any status record reachable from the initial record by
Orchestrator writes that shows stage `completed` has nonempty
`result_locations` (they are populated by the same write).  Client side:
in any state of the `useImageTranslator` hook reachable from its initial
state, `uploadStatus = "completed"` implies `downloadUrl` is non-null
(`pollStatusHandler` sets `"completed"` only together with a truthy
result URL, stored as `downloadUrl` in the same step). -/
theorem completed_has_results :
    (∀ s, Relation.ReflTransGen OrchStep initStatus s →
        s.stage = .completed → s.result_locations ≠ []) ∧
    (∀ s, Relation.ReflTransGen ClientStep initClient s →
        s.uploadStatus = .completed → s.downloadUrl ≠ none) := by
  constructor
  · intro s hreach
    induction hreach with
    | refl => intro hc; exact absurd hc (by simp [initStatus])
    | tail _ hstep _ => exact orchStep_completed_results hstep
  · intro s hreach
    induction hreach with
    | refl => intro hc; exact absurd hc (by simp [initClient])
    | tail _ hstep ih => exact clientStep_preserves_completed hstep ih

/-- Witness for C3: a full successful orchestrator run ends `completed`
with nonempty result locations, and the client state produced by a poll
response carrying a result URL has a non-null `downloadUrl`. -/
theorem completed_has_results_witness :
    orchRunEx.result_locations ≠ [] ∧
    (handlePollOk respEx initClient).downloadUrl ≠ none :=
  ⟨completed_has_results.1 orchRunEx
      (Relation.ReflTransGen.head (OrchStep.start rfl rfl)
        (Relation.ReflTransGen.head (OrchStep.extracted rfl rfl)
          (Relation.ReflTransGen.head (OrchStep.translated rfl rfl)
            (Relation.ReflTransGen.single
              (OrchStep.rendered resultLocsEx rfl rfl (by decide))))))
      rfl,
   completed_has_results.2 (handlePollOk respEx initClient)
      (Relation.ReflTransGen.single (ClientStep.pollOk respEx))
      (by decide)⟩

/-! ## Polling clients: claim C4 -/

/-- `jsOr` never yields the empty string when its fallback is nonempty. -/
theorem jsOr_ne_empty (a b : String) (hb : b ≠ "") : jsOr a b ≠ "" := by
  by_cases h : a = "" <;> simp [jsOr, h]
  exact hb

/-- C4 (amended).  In `pollStatusHandler`, a run of consecutive
404/"item not found" poll failures is retried exactly `maxRetries = 3`
times, each retry scheduled after the fixed `retryDelay`; the next
failure stops the loop with `uploadStatus = error` and a nonempty
`errorMessage`.  Any longer stream of such failures is never consumed
past attempt `maxRetries + 1`: the retry policy is bounded. -/
theorem pollStatusHandler_bounded_retry (s : ClientState) (msgs : List String)
    (hall : ∀ m ∈ msgs, isNotFoundMsg m = true)
    (hlen : maxRetries < msgs.length) :
    ∃ s1 : ClientState,
      runPoll (msgs.map PollOutcome.exn) 0 s =
        (s1, maxRetries, List.replicate maxRetries retryDelay, true) ∧
      s1.uploadStatus = .error ∧ s1.errorMessage ≠ "" := by
  match msgs with
  | [] => simp [maxRetries] at hlen
  | [m1] => simp [maxRetries] at hlen
  | [m1, m2] => simp [maxRetries] at hlen
  | [m1, m2, m3] => simp [maxRetries] at hlen
  | m1 :: m2 :: m3 :: m4 :: rest =>
      have h1 : isNotFoundMsg m1 = true := hall m1 (by simp)
      have h2 : isNotFoundMsg m2 = true := hall m2 (by simp)
      have h3 : isNotFoundMsg m3 = true := hall m3 (by simp)
      refine ⟨{ s with uploadStatus := .error,
                       errorMessage := jsOr m4 "Failed to check processing status" },
              ?_, rfl, jsOr_ne_empty m4 _ (by decide)⟩
      simp [runPoll, pollAttempt, h1, h2, h3, maxRetries, retryDelay, List.replicate]

/-- Witness for C4: four consecutive `"HTTP error! status: 404"` poll
failures drive `pollStatusHandler` into the error state after exactly
three fixed-delay retries. -/
theorem pollStatusHandler_bounded_retry_witness :
    ∃ s1 : ClientState,
      runPoll (notFoundMsgsEx.map PollOutcome.exn) 0 initClient =
        (s1, maxRetries, List.replicate maxRetries retryDelay, true) ∧
      s1.uploadStatus = .error ∧ s1.errorMessage ≠ "" :=
  pollStatusHandler_bounded_retry initClient notFoundMsgsEx (by decide) (by decide)

set_option maxRecDepth 4000 in
/-- Counterexample for C4 as frozen: the repository's other polling
client, the legacy `pollStatus` of `src/modules/pollStatus.ts`, is an
unbounded `setInterval` loop.  After one hundred consecutive 404
responses it is still polling (`cleared = false`) and has surfaced
nothing at all — its state is the initial state — instead of stopping
with an error after `maxRetries = 3` retries. -/
theorem pollStatus_legacy_unbounded_cex :
    legacyRun (List.replicate 100 notFoundResponse) legacyInit = legacyInit ∧
    (legacyRun (List.replicate 100 notFoundResponse) legacyInit).cleared = false := by
  decide

/-! ## Schema validation: claim C5 -/

/-- A `properties` check applies to the stored value of a present key. -/
theorem checkProp_some {kvs : List (String × Json)} {k : String} {check : Json → Bool}
    {v : Json} (h : checkProp kvs k check = true) (hv : kvs.lookup k = some v) :
    check v = true := by
  unfold checkProp at h
  rw [hv] at h
  exact h

/-- A valid `Style` object has its five required keys. -/
theorem validStyle_required {j : Json} (h : validStyle j = true) :
    hasKey j "font_family" = true ∧ hasKey j "font_size" = true ∧
    hasKey j "color" = true ∧ hasKey j "is_bold" = true ∧ hasKey j "is_italic" = true := by
  cases j <;> simp [validStyle] at h
  simp [hasKey, getKey, requireKey] at h ⊢
  tauto

/-- A valid `Element` object has its five required keys, and a present
`style` value is itself a valid `Style`. -/
theorem validElementJson_sound {j : Json} (h : validElementJson j = true) :
    (hasKey j "type" = true ∧ hasKey j "content" = true ∧
     hasKey j "bounding_box" = true ∧ hasKey j "style" = true ∧
     hasKey j "language" = true) ∧
    ∀ st : Json, getKey j "style" = some st → validStyle st = true := by
  cases j with
  | obj kvs =>
      rw [validElementJson] at h
      simp only [Bool.and_eq_true] at h
      obtain ⟨⟨⟨⟨⟨⟨⟨⟨⟨hty, hco⟩, hbb⟩, hsty⟩, hlang⟩, _⟩, _⟩, _⟩, hstyp⟩, _⟩ := h
      refine ⟨?_, ?_⟩
      · simp [hasKey, getKey, requireKey] at hty hco hbb hsty hlang ⊢
        tauto
      · intro st hst
        simp only [getKey] at hst
        exact checkProp_some hstyp hst
  | null => simp [validElementJson] at h
  | bool b => simp [validElementJson] at h
  | num q => simp [validElementJson] at h
  | str s => simp [validElementJson] at h
  | arr xs => simp [validElementJson] at h

/-- A valid `Page` object has its three required keys, and every entry of
a present `elements` array is a valid `Element`. -/
theorem validPageJson_sound {j : Json} (h : validPageJson j = true) :
    (hasKey j "page_num" = true ∧ hasKey j "dimensions" = true ∧
     hasKey j "elements" = true) ∧
    ∀ es : List Json, getKey j "elements" = some (Json.arr es) →
      ∀ e ∈ es, validElementJson e = true := by
  cases j with
  | obj kvs =>
      rw [validPageJson] at h
      simp only [Bool.and_eq_true] at h
      obtain ⟨⟨⟨⟨⟨hpn, hdim⟩, hel⟩, _⟩, _⟩, help⟩ := h
      refine ⟨?_, ?_⟩
      · simp [hasKey, getKey, requireKey] at hpn hdim hel ⊢
        tauto
      · intro es hes e he
        simp only [getKey] at hes
        have := checkProp_some help hes
        simp only [Bool.and_eq_true, List.all_eq_true] at this
        exact this e he
  | null => simp [validPageJson] at h
  | bool b => simp [validPageJson] at h
  | num q => simp [validPageJson] at h
  | str s => simp [validPageJson] at h
  | arr xs => simp [validPageJson] at h

/-- A valid `Document` object has its `pages` key, and every entry of a
present `pages` array is a valid `Page`. -/
theorem validDocumentJson_sound {j : Json} (h : validDocumentJson j = true) :
    hasKey j "pages" = true ∧
    ∀ ps : List Json, getKey j "pages" = some (Json.arr ps) →
      ∀ p ∈ ps, validPageJson p = true := by
  cases j with
  | obj kvs =>
      rw [validDocumentJson] at h
      simp only [Bool.and_eq_true] at h
      obtain ⟨hpg, hpgp⟩ := h
      refine ⟨?_, ?_⟩
      · simp [hasKey, getKey, requireKey] at hpg ⊢
        exact hpg
      · intro ps hps p hp
        simp only [getKey] at hps
        have := checkProp_some hpgp hps
        simp only [List.all_eq_true] at this
        exact this p hp
  | null => simp [validDocumentJson] at h
  | bool b => simp [validDocumentJson] at h
  | num q => simp [validDocumentJson] at h
  | str s => simp [validDocumentJson] at h
  | arr xs => simp [validDocumentJson] at h

/-- C5.  A `DocumentTranslation` envelope validates only when `metadata`,
`source` and `target` are present, every Page of `source`/`target` has
`page_num`, `dimensions` and `elements`, every Element has `type`,
`content`, `bounding_box`, `style` and `language`, and every Style has
`font_family`, `font_size`, `color`, `is_bold` and `is_italic`.
Contrapositively, any input missing one of these required fields fails
validation rather than being accepted with the field optionally
absent. -/
theorem documentTranslation_schema_required (j : Json)
    (h : validDocumentTranslation j = true) :
    (hasKey j "metadata" = true ∧ hasKey j "source" = true ∧ hasKey j "target" = true) ∧
    ∀ d : Json, (getKey j "source" = some d ∨ getKey j "target" = some d) →
      hasKey d "pages" = true ∧
      ∀ ps : List Json, getKey d "pages" = some (Json.arr ps) →
        ∀ p ∈ ps,
          (hasKey p "page_num" = true ∧ hasKey p "dimensions" = true ∧
           hasKey p "elements" = true) ∧
          ∀ es : List Json, getKey p "elements" = some (Json.arr es) →
            ∀ e ∈ es,
              (hasKey e "type" = true ∧ hasKey e "content" = true ∧
               hasKey e "bounding_box" = true ∧ hasKey e "style" = true ∧
               hasKey e "language" = true) ∧
              ∀ st : Json, getKey e "style" = some st →
                hasKey st "font_family" = true ∧ hasKey st "font_size" = true ∧
                hasKey st "color" = true ∧ hasKey st "is_bold" = true ∧
                hasKey st "is_italic" = true := by
  have hdoc : ∀ d : Json, validDocumentJson d = true →
      hasKey d "pages" = true ∧
      ∀ ps : List Json, getKey d "pages" = some (Json.arr ps) →
        ∀ p ∈ ps,
          (hasKey p "page_num" = true ∧ hasKey p "dimensions" = true ∧
           hasKey p "elements" = true) ∧
          ∀ es : List Json, getKey p "elements" = some (Json.arr es) →
            ∀ e ∈ es,
              (hasKey e "type" = true ∧ hasKey e "content" = true ∧
               hasKey e "bounding_box" = true ∧ hasKey e "style" = true ∧
               hasKey e "language" = true) ∧
              ∀ st : Json, getKey e "style" = some st →
                hasKey st "font_family" = true ∧ hasKey st "font_size" = true ∧
                hasKey st "color" = true ∧ hasKey st "is_bold" = true ∧
                hasKey st "is_italic" = true := by
    intro d hd
    obtain ⟨hpk, hpages⟩ := validDocumentJson_sound hd
    refine ⟨hpk, ?_⟩
    intro ps hps p hp
    obtain ⟨hpreq, hels⟩ := validPageJson_sound (hpages ps hps p hp)
    refine ⟨hpreq, ?_⟩
    intro es hes e he
    obtain ⟨hereq, hsty⟩ := validElementJson_sound (hels es hes e he)
    exact ⟨hereq, fun st hst => validStyle_required (hsty st hst)⟩
  cases j with
  | obj kvs =>
      rw [validDocumentTranslation] at h
      simp only [Bool.and_eq_true] at h
      obtain ⟨⟨⟨⟨⟨hm, hs⟩, ht⟩, _⟩, hsp⟩, htp⟩ := h
      refine ⟨?_, ?_⟩
      · simp [hasKey, getKey, requireKey] at hm hs ht ⊢
        tauto
      · intro d hd
        rcases hd with hd | hd <;> simp only [getKey] at hd
        · exact hdoc d (checkProp_some hsp hd)
        · exact hdoc d (checkProp_some htp hd)
  | null => simp [validDocumentTranslation] at h
  | bool b => simp [validDocumentTranslation] at h
  | num q => simp [validDocumentTranslation] at h
  | str s => simp [validDocumentTranslation] at h
  | arr xs => simp [validDocumentTranslation] at h

/-- Witness for C5: the example envelope validates, and the theorem
yields the presence of required keys down to the style level. -/
theorem documentTranslation_schema_required_witness :
    hasKey envelopeEx "metadata" = true ∧
    hasKey pageJsonEx "page_num" = true ∧
    hasKey elementJsonEx "type" = true ∧
    hasKey styleJsonEx "font_family" = true := by
  have h := documentTranslation_schema_required envelopeEx (by decide)
  have hdoc := h.2 documentJsonEx (Or.inl rfl)
  have hpage := hdoc.2 [pageJsonEx] rfl pageJsonEx (List.mem_singleton.mpr rfl)
  have helem := hpage.2 [elementJsonEx] rfl elementJsonEx (List.mem_singleton.mpr rfl)
  have hsty := helem.2 styleJsonEx rfl
  exact ⟨h.1.1, hpage.1.1, helem.1.1, hsty.1⟩

/-! ## Render determinism: claim C8 -/

/-- C8.  Rendering is a deterministic pure function of the input
Document and chosen output format: two render calls, even from different
ambient job contexts, produce byte-identical output on the same
Document. -/
theorem render_deterministic (ctx1 ctx2 : JobContext) (fmt : OutputFormat)
    (D1 D2 : Document) (h : D1 = D2) :
    renderJob ctx1 fmt D1 = renderJob ctx2 fmt D2 := by
  subst h
  rfl

/-- Witness for C8: rendering the example document from two different
job contexts yields identical bytes. -/
theorem render_deterministic_witness :
    renderJob ctxEx1 .html docModelEx = renderJob ctxEx2 .html docModelEx :=
  render_deterministic ctxEx1 ctxEx2 .html docModelEx docModelEx rfl

/-! ## File selection: claim C9 -/

/-- C9.  `handleFileSelect` on a file over 10MB or of a disallowed MIME
type sets `uploadStatus` to `error` with a nonempty `errorMessage`,
leaving `selectedFile`, `previewUrl` and `downloadUrl` untouched (no
upload begins); on a file within the limit and of an allowed type it
stores the file, sets `uploadStatus` to `idle`, clears `errorMessage`,
resets `processingProgress` to 0 and `downloadUrl` to null. -/
theorem handleFileSelect_spec (s : ClientState) (f : JsFile) (url : String) :
    ((f.size > 10 * 1024 * 1024 ∨ f.type ∉ allowedTypes) →
        (handleFileSelect s f url).uploadStatus = .error ∧
        (handleFileSelect s f url).errorMessage ≠ "" ∧
        (handleFileSelect s f url).selectedFile = s.selectedFile ∧
        (handleFileSelect s f url).previewUrl = s.previewUrl ∧
        (handleFileSelect s f url).downloadUrl = s.downloadUrl) ∧
    (f.size ≤ 10 * 1024 * 1024 → f.type ∈ allowedTypes →
        (handleFileSelect s f url).selectedFile = some f ∧
        (handleFileSelect s f url).uploadStatus = .idle ∧
        (handleFileSelect s f url).errorMessage = "" ∧
        (handleFileSelect s f url).processingProgress = 0 ∧
        (handleFileSelect s f url).downloadUrl = none) := by
  constructor
  · intro hbad
    by_cases hs : f.size > maxFileSize
    · simp [handleFileSelect, validateFile, hs]
    · have ht : f.type ∉ allowedTypes := by
        rcases hbad with hb | hb
        · exact absurd hb (by simpa [maxFileSize] using hs)
        · exact hb
      simp [handleFileSelect, validateFile, hs, ht]
  · intro hsize htype
    have hs : ¬ (f.size > maxFileSize) := by simpa [maxFileSize] using hsize
    simp [handleFileSelect, validateFile, hs, htype]

/-- Witness for C9: an 10MB+1 file is rejected in place; a 123456-byte
PNG is accepted and resets the state for upload. -/
theorem handleFileSelect_spec_witness :
    ((handleFileSelect initClient bigFileEx "blob:1").uploadStatus = .error ∧
     (handleFileSelect initClient bigFileEx "blob:1").errorMessage ≠ "" ∧
     (handleFileSelect initClient bigFileEx "blob:1").selectedFile = initClient.selectedFile ∧
     (handleFileSelect initClient bigFileEx "blob:1").previewUrl = initClient.previewUrl ∧
     (handleFileSelect initClient bigFileEx "blob:1").downloadUrl = initClient.downloadUrl) ∧
    ((handleFileSelect initClient okFileEx "blob:2").selectedFile = some okFileEx ∧
     (handleFileSelect initClient okFileEx "blob:2").uploadStatus = .idle ∧
     (handleFileSelect initClient okFileEx "blob:2").errorMessage = "" ∧
     (handleFileSelect initClient okFileEx "blob:2").processingProgress = 0 ∧
     (handleFileSelect initClient okFileEx "blob:2").downloadUrl = none) :=
  ⟨(handleFileSelect_spec initClient bigFileEx "blob:1").1 (Or.inl (by decide)),
   (handleFileSelect_spec initClient okFileEx "blob:2").2 (by decide) (by decide)⟩

/-! ## `formatFileSize`: claim C10 -/

/-- C10.  `formatFileSize 0` is `"0 Bytes"`, and for every byte count
`b` with `1 ≤ b < 1024^4` the result is `b / 1024^i` rounded to at most
two decimal places, a space, and the unit at index
`i = ⌊log b / log 1024⌋` of `["Bytes", "KB", "MB", "GB"]` (the index is
characterized by `1024^i ≤ b < 1024^(i+1)`); on this domain the unit is
always one of those four strings. -/
theorem formatFileSize_spec :
    formatFileSize 0 = "0 Bytes" ∧
    ∀ b : Nat, 1 ≤ b → b < 1024 ^ 4 →
      ∃ i : Nat, i ≤ 3 ∧ 1024 ^ i ≤ b ∧ b < 1024 ^ (i + 1) ∧
        sizeUnits.getD i "undefined" ∈ sizeUnits ∧
        formatFileSize b =
          showHundredths (round2 ((b : Rat) / (1024 : Rat) ^ i)) ++ " " ++
            sizeUnits.getD i "undefined" := by
  refine ⟨rfl, ?_⟩
  intro b hb hlt
  have hb0 : b ≠ 0 := by omega
  have hpow : 1024 ^ Nat.log 1024 b ≤ b := Nat.pow_log_le_self 1024 hb0
  have hsucc : b < 1024 ^ (Nat.log 1024 b + 1) :=
    Nat.lt_pow_succ_log_self (by norm_num) b
  have hle3 : Nat.log 1024 b ≤ 3 := by
    by_contra hgt
    push_neg at hgt
    have h4 : (1024 : Nat) ^ 4 ≤ 1024 ^ Nat.log 1024 b :=
      Nat.pow_le_pow_right (by norm_num) (by omega)
    omega
  refine ⟨Nat.log 1024 b, hle3, hpow, hsucc, ?_, ?_⟩
  · have : Nat.log 1024 b = 0 ∨ Nat.log 1024 b = 1 ∨ Nat.log 1024 b = 2 ∨
        Nat.log 1024 b = 3 := by omega
    rcases this with h | h | h | h <;> rw [h] <;> simp [sizeUnits]
  · simp [formatFileSize, hb0]

/-- Witness for C10: the theorem applied at 1536 bytes. -/
theorem formatFileSize_spec_witness :
    (1 : Nat) ≤ 1536 ∧ (1536 : Nat) < 1024 ^ 4 ∧
    ∃ i : Nat, i ≤ 3 ∧ 1024 ^ i ≤ 1536 ∧ 1536 < 1024 ^ (i + 1) ∧
      sizeUnits.getD i "undefined" ∈ sizeUnits ∧
      formatFileSize 1536 =
        showHundredths (round2 ((1536 : Rat) / (1024 : Rat) ^ i)) ++ " " ++
          sizeUnits.getD i "undefined" :=
  ⟨by norm_num, by norm_num, formatFileSize_spec.2 1536 (by norm_num) (by norm_num)⟩

end DocImageTranslator
